import Mathlib

/-!
Verification of the FHEVM provisioning layer of the zamapp repository.

The definitions below are shallow embeddings of the TypeScript sources:
  * frontend/src/utils/fhevm/index.ts (file segment defining MockFhevmInstance
    and MockFhevmEncryptedInput, i.e. the mock/fhevmMock module),
  * frontend/src/utils/fhevm.ts (file segment defining resolve,
    tryFetchFHEVMHardhatNodeRelayerMetadata and createFhevmInstance),
  * the validation module (isValidRelayerSDK, isValidAddress),
  * the RelayerSDKLoader module (load / performLoad),
  * frontend/src/hooks/useFhevm.ts (refresh and the instance-creation effect).

JavaScript machine integers never overflow in the modelled paths (all values are
small naturals), so numbers are modelled as Nat.  JavaScript strings are modelled
as Lean String; the JS string helpers used by the code (padStart, repeat,
substring, endsWith, replace of the first occurrence, toLowerCase, includes,
parseInt with radix 16, JSON.stringify, Buffer UTF-8 + hex encoding) are given
explicit executable models below.  Fallible code returns Except, absent values
Option.
-/

namespace Zamapp

/-! ## JavaScript string primitives -/

/-- Model of JS `a.startsWith(b)` on character lists. -/
def startsWithL : List Char → List Char → Bool
  | _, [] => true
  | [], _ :: _ => false
  | a :: as, b :: bs => a == b && startsWithL as bs

/-- Substring containment on character lists (JS `String.prototype.includes`). -/
def hasSub : List Char → List Char → Bool
  | [], sub => sub.isEmpty
  | c :: cs, sub => startsWithL (c :: cs) sub || hasSub cs sub

/-- JS `s.includes(sub)`. -/
def jsIncludes (s sub : String) : Bool := hasSub s.data sub.data

/-- JS `s.toLowerCase()`; the strings appearing here are ASCII, where
`Char.toLower` agrees with the JS conversion. -/
def jsToLower (s : String) : String := String.mk (s.data.map Char.toLower)

/-- JS `s.startsWith(p)`. -/
def jsStartsWith (s p : String) : Bool := startsWithL s.data p.data

/-- JS `s.endsWith(p)`. -/
def jsEndsWith (s p : String) : Bool := startsWithL s.data.reverse p.data.reverse

/-- Drop the first occurrence of `pat`; model of JS `s.replace(pat, "")` with a
string pattern (JS replaces only the first occurrence). -/
def replaceFirstL : List Char → List Char → List Char
  | [], _ => []
  | c :: cs, pat =>
      if startsWithL (c :: cs) pat then (c :: cs).drop pat.length
      else c :: replaceFirstL cs pat

/-- JS `s.replace(pat, "")`. -/
def jsReplaceFirst (s pat : String) : String := String.mk (replaceFirstL s.data pat.data)

/-- JS `s.substring(0, n)`. -/
def jsSubstringTake (s : String) (n : Nat) : String := String.mk (s.data.take n)

/-- JS `s.padStart(n, c)`. -/
def jsPadStart (s : String) (n : Nat) (c : Char) : String :=
  String.mk (List.replicate (n - s.data.length) c ++ s.data)

/-- JS `s.repeat(n)`. -/
def jsRepeat (s : String) (n : Nat) : String := String.join (List.replicate n s)

/-- JS `v.toString(16)` for a non-negative integer: lowercase hex digits, no
prefix; `Nat.toDigits 16` produces exactly these digits. -/
def jsToString16 (v : Nat) : String := String.mk (Nat.toDigits 16 v)

/-- Value of a hex digit character, `none` if the character is not a hex digit. -/
def hexDigitVal (c : Char) : Option Nat :=
  if '0' ≤ c ∧ c ≤ '9' then some (c.toNat - '0'.toNat)
  else if 'a' ≤ c ∧ c ≤ 'f' then some (c.toNat - 'a'.toNat + 10)
  else if 'A' ≤ c ∧ c ≤ 'F' then some (c.toNat - 'A'.toNat + 10)
  else none

def isHexDigit (c : Char) : Bool := (hexDigitVal c).isSome

/-- Accumulate the value of the maximal leading run of hex digits. -/
def parseHexLoop : List Char → Nat → Nat
  | [], acc => acc
  | c :: cs, acc =>
      match hexDigitVal c with
      | some d => parseHexLoop cs (acc * 16 + d)
      | none => acc

/-- Model of JS `parseInt(s, 16)` for the inputs arising in this code base
(no surrounding whitespace, no sign): an optional `0x`/`0X` prefix followed by
hex digits; `none` models `NaN` (no leading digit). -/
def jsParseIntHex (s : String) : Option Nat :=
  let body :=
    if startsWithL s.data ['0', 'x'] || startsWithL s.data ['0', 'X'] then s.data.drop 2
    else s.data
  match body with
  | [] => none
  | c :: _ => if isHexDigit c then some (parseHexLoop body 0) else none

/-! ## UTF-8 / hex encoding (JS `Buffer.from(string).toString("hex")`) -/

/-- UTF-8 encoding of one character. -/
def utf8BytesOfChar (c : Char) : List Nat :=
  let n := c.toNat
  if n < 128 then [n]
  else if n < 2048 then [192 + n / 64, 128 + n % 64]
  else if n < 65536 then [224 + n / 4096, 128 + (n / 64) % 64, 128 + n % 64]
  else [240 + n / 262144, 128 + (n / 4096) % 64, 128 + (n / 64) % 64, 128 + n % 64]

/-- UTF-8 bytes of a string. -/
def utf8Bytes (s : String) : List Nat := (s.data.map utf8BytesOfChar).flatten

/-- Two lowercase hex digits of a byte (`Buffer.prototype.toString("hex")`). -/
def byteToHex (b : Nat) : String := String.mk [Nat.digitChar (b / 16), Nat.digitChar (b % 16)]

def hexOfBytes (bs : List Nat) : String := String.join (bs.map byteToHex)

/-! ## JSON serialization (the fragment of `JSON.stringify` used by the code) -/

/-- JSON escaping of one character, as performed by `JSON.stringify`. -/
def jsonEscapeChar (c : Char) : String :=
  if c = '"' then "\\\""
  else if c = '\\' then "\\\\"
  else if c = '\x08' then "\\b"
  else if c = '\x0c' then "\\f"
  else if c = '\n' then "\\n"
  else if c = '\r' then "\\r"
  else if c = '\t' then "\\t"
  else if c.toNat < 32 then "\\u00" ++ byteToHex c.toNat
  else String.singleton c

/-- `JSON.stringify` of a string value. -/
def jsonOfString (s : String) : String :=
  "\"" ++ String.join (s.data.map jsonEscapeChar) ++ "\""

/-! ## MockFhevmEncryptedInput and MockFhevmInstance (mock/fhevmMock module) -/

/-- A JS value pushed into the builder: `add8`/`add16`/`add32` push numbers,
`add64` pushes a bigint, `addBool` pushes a boolean. -/
inductive InputValue where
  | num (n : Nat)
  | bigintVal (n : Nat)
  | boolVal (b : Bool)
deriving DecidableEq

/-- One accumulated entry `{ value, type }` of the builder. -/
structure InputEntry where
  value : InputValue
  type : String
deriving DecidableEq

/-- JS truthiness of an input value (used by `input.value ? "01" : "00"`). -/
def jsTruthy : InputValue → Bool
  | .num n => n != 0
  | .bigintVal n => n != 0
  | .boolVal b => b

/-- JS `value.toString(16)` on an input value.  (A boolean would print as
`"true"`/`"false"` since `Boolean.prototype.toString` ignores the radix; via the
builder API booleans are only ever stored with type `"ebool"` and never reach
this numeric branch.) -/
def jsToString16Value : InputValue → String
  | .num n => jsToString16 n
  | .bigintVal n => jsToString16 n
  | .boolVal b => if b then "true" else "false"

/-- The mock encrypted-input builder state: the `contractAddress`, `userAddress`
and the `inputs` array of the `MockFhevmEncryptedInput` class. -/
structure MockFhevmEncryptedInput where
  contractAddress : String
  userAddress : String
  inputs : List InputEntry
deriving DecidableEq

def MockFhevmEncryptedInput.add8 (b : MockFhevmEncryptedInput) (v : Nat) :
    MockFhevmEncryptedInput :=
  { b with inputs := b.inputs ++ [⟨InputValue.num v, "euint8"⟩] }

def MockFhevmEncryptedInput.add16 (b : MockFhevmEncryptedInput) (v : Nat) :
    MockFhevmEncryptedInput :=
  { b with inputs := b.inputs ++ [⟨InputValue.num v, "euint16"⟩] }

def MockFhevmEncryptedInput.add32 (b : MockFhevmEncryptedInput) (v : Nat) :
    MockFhevmEncryptedInput :=
  { b with inputs := b.inputs ++ [⟨InputValue.num v, "euint32"⟩] }

def MockFhevmEncryptedInput.add64 (b : MockFhevmEncryptedInput) (v : Nat) :
    MockFhevmEncryptedInput :=
  { b with inputs := b.inputs ++ [⟨InputValue.bigintVal v, "euint64"⟩] }

def MockFhevmEncryptedInput.addBool (b : MockFhevmEncryptedInput) (v : Bool) :
    MockFhevmEncryptedInput :=
  { b with inputs := b.inputs ++ [⟨InputValue.boolVal v, "ebool"⟩] }

/-- `MockFhevmInstance.createEncryptedInput(contractAddress, userAddress)`. -/
def MockFhevmInstance.createEncryptedInput (contractAddress userAddress : String) :
    MockFhevmEncryptedInput :=
  ⟨contractAddress, userAddress, []⟩

/-- The handle produced for one input inside the `encrypt()` loop. -/
def handleOf (e : InputEntry) : String :=
  if e.type = "ebool" then "0x" ++ jsRepeat (if jsTruthy e.value then "01" else "00") 32
  else "0x" ++ jsPadStart (jsToString16Value e.value) 64 '0'

/-- `JSON.stringify` of one `{ value, type }` entry.  ECMAScript
`JSON.stringify` throws `TypeError` when it reaches a BigInt value
("Do not know how to serialize a BigInt"); that exception is modelled as the
error case. -/
def jsonOfEntry (e : InputEntry) : Except String String :=
  match e.value with
  | .bigintVal _ => .error "TypeError: Do not know how to serialize a BigInt"
  | .num n =>
      .ok ("\x7b\"value\":" ++ toString n ++ ",\"type\":" ++ jsonOfString e.type ++ "\x7d")
  | .boolVal b =>
      .ok ("\x7b\"value\":" ++ (if b then "true" else "false") ++ ",\"type\":" ++
        jsonOfString e.type ++ "\x7d")

/-- Serialization of the `inputs` array, element by element in order, aborting
with the `TypeError` on the first BigInt (as `JSON.stringify` does). -/
def jsonOfEntries : List InputEntry → Except String (List String)
  | [] => .ok []
  | e :: es =>
      match jsonOfEntry e with
      | .error msg => .error msg
      | .ok s =>
          match jsonOfEntries es with
          | .error msg => .error msg
          | .ok rest => .ok (s :: rest)

/-- The value of `encrypt()`: `{ handles, inputProof }`. -/
structure EncryptResult where
  handles : List String
  inputProof : String
deriving DecidableEq

/-- `MockFhevmEncryptedInput.encrypt()`.  `now` is the value `Date.now()`
returns during the call: the proof object embeds it
(`proofData = { contractAddress, userAddress, inputs, timestamp: Date.now() }`),
so the ambient clock is an explicit parameter.  The handles array is built
first; `JSON.stringify(proofData)` then throws if any accumulated input is a
BigInt, which rejects the whole call. -/
def MockFhevmEncryptedInput.encrypt (b : MockFhevmEncryptedInput) (now : Nat) :
    Except String EncryptResult :=
  let handles := b.inputs.map handleOf
  match jsonOfEntries b.inputs with
  | .error msg => .error msg
  | .ok parts =>
      let json := "\x7b\"contractAddress\":" ++ jsonOfString b.contractAddress ++
        ",\"userAddress\":" ++ jsonOfString b.userAddress ++
        ",\"inputs\":[" ++ String.intercalate "," parts ++
        "],\"timestamp\":" ++ toString now ++ "\x7d"
      .ok ⟨handles, "0x" ++ hexOfBytes (utf8Bytes json)⟩

/-- `MockFhevmInstance.encrypt32(value)`:
`"0x" + value.toString(16).padStart(64, "0")`. -/
def MockFhevmInstance.encrypt32 (value : Nat) : String :=
  "0x" ++ jsPadStart (jsToString16 value) 64 '0'

/-- Result of `MockFhevmInstance.decrypt`: a boolean for `bool`/`ebool`, a JS
number otherwise (`none` models `NaN` from `parseInt`). -/
inductive DecryptResult where
  | boolRes (b : Bool)
  | numRes (n : Option Nat)
deriving DecidableEq

/-- `MockFhevmInstance.decrypt(ciphertext, type)`:
for `bool`/`ebool` it returns `ciphertext.endsWith("01")`; otherwise it strips
the first `"0x"` occurrence and evaluates `parseInt(hex.substring(0, 8), 16)`. -/
def MockFhevmInstance.decrypt (ciphertext ty : String) : DecryptResult :=
  if ty = "bool" ∨ ty = "ebool" then .boolRes (jsEndsWith ciphertext "01")
  else
    let hex := jsReplaceFirst ciphertext "0x"
    .numRes (jsParseIntHex (jsSubstringTake hex 8))

/-! ## SDK validator (validation module: isValidRelayerSDK, isValidAddress) -/

/-- An arbitrary candidate passed to the validator: `undefined`, `null`, a
non-object value, or an object given by its own properties, each tagged with
whether its value is callable (`typeof obj[prop] === "function"`). -/
inductive SDKCandidate where
  | undef
  | nullv
  | nonObject
  | objectOf (props : List (String × Bool))
deriving DecidableEq

/-- `isValidRelayerSDK(obj)`.  The undefined/null/non-object guards reject;
`availableMethods` collects the names of callable own properties;
`foundRequiredMethods` counts how many of `["initSDK", "createInstance"]` occur
among them.  The function returns `false` when no methods exist at all, `false`
when the object has no properties, and `true` otherwise; the remaining checks in
the source (SepoliaConfig presence, `__initialized__`) only produce trace output
and never change the returned value. -/
def isValidRelayerSDK : SDKCandidate → Bool
  | .undef => false
  | .nullv => false
  | .nonObject => false
  | .objectOf props =>
      let availableMethods := (props.filter (fun p => p.2)).map (fun p => p.1)
      let requiredMethods := ["initSDK", "createInstance"]
      let foundRequiredMethods :=
        (requiredMethods.filter (fun m => availableMethods.contains m)).length
      if availableMethods.length = 0 ∧ foundRequiredMethods = 0 then false
      else
        let allProps := props.map (fun p => p.1)
        if allProps.length = 0 then false
        else true

/-- The acceptance predicate as the spec words it ("non-null object exposing at
least one of two named capability functions (initSDK, createInstance) OR three
or more callable members overall"); written from the spec for comparison with
the source function above. -/
def specMinimumBar : SDKCandidate → Bool
  | .objectOf props =>
      let callables := (props.filter (fun p => p.2)).map (fun p => p.1)
      callables.contains "initSDK" || callables.contains "createInstance" ||
        decide (3 ≤ callables.length)
  | _ => false

/-- What the source actually enforces: a non-null object with at least one
callable own member. -/
def acceptsAnyCallable : SDKCandidate → Bool
  | .objectOf props => props.any (fun p => p.2)
  | _ => false

/-! ## JSON-RPC values and the mock-backend probe (fhevm.ts) -/

/-- A JSON-RPC result value as seen by the probing code: a string, a non-null
object with named fields, `null`, or anything else (numbers, booleans,
undefined) whose precise identity the probed checks never distinguish. -/
inductive JSVal where
  | strVal (s : String)
  | objVal (fields : List (String × JSVal))
  | nullVal
  | otherVal

/-- `isValidAddress(address)` from the validation module: a string, starting
with `0x`, of length 42, matching `^0x[0-9a-fA-F]{40}$` (the regex test is the
conjunction of the prefix, the length and all-hex-digit checks). -/
def isValidAddress : JSVal → Bool
  | .strVal s =>
      if ¬ jsStartsWith s "0x" then false
      else if s.data.length ≠ 42 then false
      else (s.data.drop 2).all isHexDigit
  | _ => false

/-- The per-field check in `tryFetchFHEVMHardhatNodeRelayerMetadata`'s loop:
the field must be present, a string, and start with `"0x"`. -/
def metadataFieldOk (fields : List (String × JSVal)) (k : String) : Bool :=
  match fields.lookup k with
  | some (.strVal s) => jsStartsWith s "0x"
  | _ => false

/-- `tryFetchFHEVMHardhatNodeRelayerMetadata(rpcUrl)`, made pure by passing the
two RPC results in: `versionResult` is the outcome of
`getWeb3Client(rpcUrl)` (`web3_clientVersion`; its `WEB3_CLIENTVERSION_ERROR`
propagates out uncaught), `metadataResult` the outcome of
`getFHEVMRelayerMetadata(rpcUrl)` (`fhevm_relayer_metadata`; its error is
caught and mapped to `undefined`).  A non-string version or one whose lowercase
form lacks `"hardhat"` yields `undefined`; a metadata value that is not a
non-null object, or with any of the three address fields missing / non-string /
not `0x`-prefixed, yields `undefined`; otherwise the metadata object is
returned. -/
def tryFetchFHEVMHardhatNodeRelayerMetadata
    (versionResult : Except Unit JSVal) (metadataResult : Except Unit JSVal) :
    Except Unit (Option JSVal) :=
  match versionResult with
  | .error e => .error e
  | .ok vv =>
      match vv with
      | .strVal v =>
          if ¬ jsIncludes (jsToLower v) "hardhat" then .ok none
          else
            match metadataResult with
            | .error _ => .ok none
            | .ok m =>
                match m with
                | .objVal fields =>
                    if metadataFieldOk fields "ACLAddress" &&
                        metadataFieldOk fields "InputVerifierAddress" &&
                        metadataFieldOk fields "KMSVerifierAddress"
                    then .ok (some (.objVal fields)) else .ok none
                | _ => .ok none
      | _ => .ok none

/-- Spec-level well-formedness of one address slot under the amended reading of
the probe's acceptance: the field is present, is a string, and is
`0x`-prefixed. -/
def specAddrPresentAnd0x (f : Option JSVal) : Prop :=
  ∃ s, f = some (JSVal.strVal s) ∧ jsStartsWith s "0x" = true

/-! ## Network resolution (`resolve` in fhevm.ts) -/

/-- JS truthiness of an optional string (`undefined` and `""` are falsy). -/
def jsTruthyStr : Option String → Bool
  | some s => s ≠ ""
  | none => false

/-- The result record of `resolve`. -/
structure ResolveResult where
  isMock : Bool
  chainId : Nat
  rpcUrl : Option String
deriving DecidableEq

/-- Lookup in the merged table `{ 31337: "http://localhost:8545",
...(mockChains ?? {}) }`: a caller-supplied binding for a chain id shadows the
default URL (JS spread, later entries win), and the default binding for 31337
is always present.  Caller tables come from a `Record<number, string>`, whose
keys are unique, so first-binding lookup in the association list is faithful. -/
def mergedMockChains (mockChains : Option (List (Nat × String))) (cid : Nat) :
    Option String :=
  match (mockChains.getD []).lookup cid with
  | some u => some u
  | none => if cid = 31337 then some "http://localhost:8545" else none

/-- `resolve(providerOrUrl, mockChains)` after the chain id has been obtained
from the provider or URL (`getChainId`'s own failures happen before this logic
and are outside it).  `rpcUrlIn` is `some url` when `providerOrUrl` was a
string, `none` when it was a provider.  If the merged table has the chain id,
the result is a mock descriptor, taking the table's URL when the incoming one
is falsy; otherwise an `isMock: false` descriptor is returned — never an
exception. -/
def resolve (chainId : Nat) (rpcUrlIn : Option String)
    (mockChains : Option (List (Nat × String))) : ResolveResult :=
  match mergedMockChains mockChains chainId with
  | some tableUrl =>
      let rpcUrl := if jsTruthyStr rpcUrlIn then rpcUrlIn else some tableUrl
      ⟨true, chainId, rpcUrl⟩
  | none => ⟨false, chainId, rpcUrlIn⟩

/-! ## RelayerSDKLoader (relayerSDKLoader module) -/

/-- State of `window.relayerSDK` as the loader's checks distinguish it:
absent, present but failing `isValidRelayerSDK`, or present and valid. -/
inductive WindowSDK where
  | absent
  | invalid
  | valid
deriving DecidableEq

/-- The loader plus the pieces of the page it touches: `_loadPromise`
(identified by a numeric promise id), a fresh-id counter, the number of CDN
fetches started so far (script elements appended to the DOM), the
`window.relayerSDK` state and whether a script tag with the SDK URL exists. -/
structure LoaderWorld where
  loadPromise : Option Nat
  nextPromise : Nat
  fetchCount : Nat
  windowSDK : WindowSDK
  scriptTag : Bool
deriving DecidableEq

/-- What a `load()` call hands back to its caller. -/
inductive LoadReturn where
  | existing (id : Nat)
  | resolved
  | fresh (id : Nat)
deriving DecidableEq

/-- `RelayerSDKLoader._performLoad()` at the moment `load()` assigns it to
`_loadPromise`: if a script tag with the SDK URL already exists it waits on it
(no new fetch); otherwise it appends a new script element, which starts the one
CDN fetch.  Resolution/rejection of the returned promise happens later and does
not change `_loadPromise`. -/
def RelayerSDKLoader.performLoad (s : LoaderWorld) : LoadReturn × LoaderWorld :=
  let id := s.nextPromise
  if s.scriptTag then
    (.fresh id, { s with nextPromise := id + 1, loadPromise := some id })
  else
    (.fresh id,
      { s with nextPromise := id + 1, loadPromise := some id,
               fetchCount := s.fetchCount + 1, scriptTag := true })

/-- `RelayerSDKLoader.load()`: a pending `_loadPromise` is returned as is; with
`relayerSDK` present and valid it returns `Promise.resolve()`; with an invalid
`relayerSDK` it deletes the global object, removes matching script tags and
resets `_loadPromise` before performing the load; otherwise it performs the
load directly. -/
def RelayerSDKLoader.load (s : LoaderWorld) : LoadReturn × LoaderWorld :=
  match s.loadPromise with
  | some id => (.existing id, s)
  | none =>
      match s.windowSDK with
      | .valid => (.resolved, s)
      | .absent => RelayerSDKLoader.performLoad s
      | .invalid =>
          RelayerSDKLoader.performLoad
            { s with windowSDK := .absent, scriptTag := false, loadPromise := none }

/-! ## createFhevmInstance (fhevm.ts) -/

/-- Outcome of `createFhevmInstance`: a mock instance carrying the fetched
metadata, entry into the real-RelayerSDK branch (whose internal SDK
load/init/create steps have their own failure modes, none of which is the
unsupported-network error), the terminal `Unsupported network` exception, or
`FhevmAbortError`. -/
inductive CreateOutcome where
  | mock (metadata : JSVal)
  | realPath
  | unsupported (chainId : Nat)
  | aborted

/-- Chain id of `FHEVM_CONFIG.SEPOLIA` (constants module). -/
def FHEVM_CONFIG_SEPOLIA_chainId : Nat := 11155111

/-- The `if (isMock && rpcUrl) { try { ... } catch { ... } }` block of
`createFhevmInstance`: it yields the fetched metadata exactly when the resolved
descriptor is mock with a truthy URL and the probe returned a metadata object;
a probe error (caught and logged by the `catch`) or an `undefined` probe result
falls through with nothing. -/
def mockBranchResult (r : ResolveResult) (probeResult : Except Unit (Option JSVal)) :
    Option JSVal :=
  if r.isMock = true ∧ jsTruthyStr r.rpcUrl = true then
    match probeResult with
    | .ok (some m) => some m
    | _ => none
  else none

/-- `createFhevmInstance(parameters)` with its environment made explicit:
the resolved chain id / incoming URL / mock-chain table feed `resolve`; the two
RPC results feed `tryFetchFHEVMHardhatNodeRelayerMetadata`; `signalAborted` is
the (constant) state of `parameters.signal`.  After the mock branch, Sepolia
goes to the real-SDK branch and every other chain id throws
`Unsupported network: chainId=...`. -/
def createFhevmInstance (chainId : Nat) (rpcUrlIn : Option String)
    (mockChains : Option (List (Nat × String)))
    (versionResult metadataResult : Except Unit JSVal)
    (signalAborted : Bool) : CreateOutcome :=
  if signalAborted then .aborted
  else
    match mockBranchResult (resolve chainId rpcUrlIn mockChains)
        (tryFetchFHEVMHardhatNodeRelayerMetadata versionResult metadataResult) with
    | some m => .mock m
    | none =>
        if chainId = FHEVM_CONFIG_SEPOLIA_chainId then .realPath
        else .unsupported chainId

/-! ## useFhevm hook (hooks/useFhevm.ts) -/

/-- The hook's `FhevmGoState`. -/
inductive FhevmGoState where
  | idle
  | loading
  | ready
  | error
deriving DecidableEq

/-- Controller state of `useFhevm`: the three React states (`status`,
`instance`, `error` — instances and errors abstracted to numeric ids), the id
of the current attempt's AbortController, the set of abort-controller ids whose
`abort()` has been called, and a fresh-id counter. -/
structure UseFhevmState where
  status : FhevmGoState
  inst : Option Nat
  err : Option Nat
  currentAttempt : Option Nat
  abortedIds : List Nat
  nextAttempt : Nat
deriving DecidableEq

/-- `refresh()` followed by the main effect re-running with a provider present:
`refresh` aborts the current AbortController (if any) and resets
instance/error/status, then bumps `_providerChanged`; the effect allocates a
fresh AbortController and enters `loading` before starting
`createFhevmInstance`. -/
def useFhevmRefresh (s : UseFhevmState) : UseFhevmState :=
  let aborted :=
    match s.currentAttempt with
    | some a => a :: s.abortedIds
    | none => s.abortedIds
  { status := .loading
    inst := none
    err := none
    currentAttempt := some s.nextAttempt
    abortedIds := aborted
    nextAttempt := s.nextAttempt + 1 }

/-- The `.then` handler of an attempt whose signal is `a` resolving with
instance `instId`: if `thisSignal.aborted` it returns without touching state;
otherwise it stores the instance and enters `ready`.  (The source's
`_assert(thisProvider === _providerRef.current)` cannot fire on a non-aborted
attempt, because `_providerRef` is only reassigned inside `refresh`, which
always aborts the in-flight controller first.) -/
def attemptSucceeds (s : UseFhevmState) (a instId : Nat) : UseFhevmState :=
  if a ∈ s.abortedIds then s
  else { s with inst := some instId, err := none, status := .ready }

/-- The `.catch` handler of an attempt whose signal is `a` failing with error
`errId`: if `thisSignal.aborted` it returns without touching state; otherwise
it stores the error and enters `error`. -/
def attemptFails (s : UseFhevmState) (a errId : Nat) : UseFhevmState :=
  if a ∈ s.abortedIds then s
  else { s with inst := none, err := some errId, status := .error }

/-! ## Concrete builders and metadata used by individual claims -/

/-- Builder holding one `add32(5)` input, bound to `("0xc", "0xu")`. -/
def c3Builder : MockFhevmEncryptedInput :=
  (MockFhevmInstance.createEncryptedInput "0xc" "0xu").add32 5

/-- Projection of an `encrypt()` outcome to its proof blob (used to compare two
outcomes without a decidable equality on `Except`). -/
def encProof : Except String EncryptResult → Option String
  | .ok x => some x.inputProof
  | .error _ => none

/-- A relayer-metadata response whose three addresses are `0x`-prefixed but far
shorter than 40 hex characters. -/
def c5Metadata : List (String × JSVal) :=
  [("ACLAddress", .strVal "0x1"), ("InputVerifierAddress", .strVal "0x1"),
   ("KMSVerifierAddress", .strVal "0x1")]

/-- A relayer-metadata response with three `0x`-prefixed string addresses. -/
def cGoodFields : List (String × JSVal) :=
  [("ACLAddress", .strVal "0xaa"), ("InputVerifierAddress", .strVal "0xbb"),
   ("KMSVerifierAddress", .strVal "0xcc")]

/-! # Theorems -/

/-! ## Shared helper lemmas about association-list lookup -/

theorem lookup_eq_none_iff (l : List (Nat × String)) (a : Nat) :
    l.lookup a = none ↔ ∀ u, (a, u) ∉ l := by
  induction l with
  | nil => simp [List.lookup]
  | cons p t ih =>
    obtain ⟨k, v⟩ := p
    by_cases h : a = k
    · subst h
      have hl : List.lookup a ((a, v) :: t) = some v := by simp [List.lookup]
      rw [hl]
      simp only [List.mem_cons]
      constructor
      · intro hc; cases hc
      · intro hall
        exact absurd (Or.inl rfl) (hall v)
    · have hbeq : (a == k) = false := by simp [h]
      have hl : List.lookup a ((k, v) :: t) = List.lookup a t := by
        simp [List.lookup, hbeq]
      rw [hl, ih]
      simp only [List.mem_cons]
      constructor
      · intro hall u hmem
        cases hmem with
        | inl he =>
          exact h (congrArg Prod.fst he)
        | inr hm => exact hall u hm
      · intro hall u hm
        exact hall u (Or.inr hm)

theorem mem_of_lookup_eq_some {l : List (Nat × String)} {a : Nat} {u : String}
    (h : l.lookup a = some u) : (a, u) ∈ l := by
  induction l with
  | nil => simp [List.lookup] at h
  | cons p t ih =>
    obtain ⟨k, v⟩ := p
    by_cases hk : a = k
    · subst hk
      have hl : List.lookup a ((a, v) :: t) = some v := by simp [List.lookup]
      rw [hl] at h
      cases h
      exact List.mem_cons_self _ _
    · have hbeq : (a == k) = false := by simp [hk]
      have hl : List.lookup a ((k, v) :: t) = List.lookup a t := by
        simp [List.lookup, hbeq]
      rw [hl] at h
      exact List.mem_cons_of_mem _ (ih h)

/-! ## C1 -/

/-- C1: the claimed round trip `decrypt (encrypt32 v) = v` fails on the code.
`encrypt32` left-pads the hex digits of `v` into a 64-character string, so for
every `v < 2^32` the value occupies the trailing 8 characters, while `decrypt`
parses `hex.substring(0, 8)` — the leading 8 characters, which are all zeros.
At the failing input `v = 1` the code decrypts the handle to `0`, not `1`. -/
theorem decrypt_encrypt32_bug :
    MockFhevmInstance.decrypt (MockFhevmInstance.encrypt32 1) "euint32" =
      DecryptResult.numRes (some 0) ∧
    DecryptResult.numRes (some 0) ≠ DecryptResult.numRes (some 1) :=
  ⟨by decide, by decide⟩

/-! ## C2 -/

/-- C2: the claim that `encrypt()` returns one handle per accumulated input
fails on the code as soon as the sequence contains an `add64` call: the builder
stores the 64-bit value as a BigInt, and `JSON.stringify(proofData)` throws
`TypeError` on BigInt values, so the whole `encrypt()` call rejects and returns
no handles array at all — even though exactly one input was accumulated and the
handle loop itself supports BigInt. -/
theorem encrypt_add64_bug :
    ((MockFhevmInstance.createEncryptedInput "0xc" "0xu").add64 1).encrypt 0 =
      Except.error "TypeError: Do not know how to serialize a BigInt" ∧
    ((MockFhevmInstance.createEncryptedInput "0xc" "0xu").add64 1).inputs.length = 1 :=
  ⟨rfl, rfl⟩

/-! ## C3 -/

set_option maxRecDepth 4096 in
/-- C3 counterexample: invoking `encrypt()` twice on the same builder state does
not yield the same data both times.  On a builder holding one `add32(5)` input,
a first call observing `Date.now() = 0` and a second observing `Date.now() = 1`
produce different results: the proof blob embeds the timestamp. -/
theorem encrypt_not_idempotent_cex :
    ¬ (c3Builder.encrypt 0 = c3Builder.encrypt 1) := by
  intro h
  have h2 := congrArg encProof h
  have hne : encProof (c3Builder.encrypt 0) ≠ encProof (c3Builder.encrypt 1) := by decide
  exact hne h2

/-- C3 amended: the handles arrays of two `encrypt()` calls on the same builder
state are always equal (the handle loop does not read the clock), and the full
results — `inputProof` included — coincide whenever the two calls observe the
same `Date.now()` value; only the embedded timestamp can differ. -/
theorem encrypt_idempotent_data_amended :
    ∀ (b : MockFhevmEncryptedInput) (t1 t2 : Nat),
      Except.map EncryptResult.handles (b.encrypt t1) =
        Except.map EncryptResult.handles (b.encrypt t2) ∧
      (t1 = t2 → b.encrypt t1 = b.encrypt t2) := by
  intro b t1 t2
  constructor
  · unfold MockFhevmEncryptedInput.encrypt
    cases h : jsonOfEntries b.inputs with
    | error msg => simp [h, Except.map]
    | ok parts => simp [h, Except.map]
  · intro h
    subst h
    rfl

/-- C3 amended witness: the amended statement at the concrete builder
`c3Builder` with both calls observing clock value `0`. -/
theorem encrypt_idempotent_data_amended_witness :
    Except.map EncryptResult.handles (c3Builder.encrypt 0) =
      Except.map EncryptResult.handles (c3Builder.encrypt 0) ∧
    c3Builder.encrypt 0 = c3Builder.encrypt 0 :=
  ⟨(encrypt_idempotent_data_amended c3Builder 0 0).1,
   (encrypt_idempotent_data_amended c3Builder 0 0).2 rfl⟩

/-! ## C4 -/

/-- C4 counterexample: the claimed acceptance condition fails on the code.  An
object exposing exactly one callable member named `foo` — neither `initSDK` nor
`createInstance`, and fewer than three callable members — is accepted by
`isValidRelayerSDK`, while the claimed minimum bar rejects it. -/
theorem isValidRelayerSDK_minbar_cex :
    isValidRelayerSDK (SDKCandidate.objectOf [("foo", true)]) = true ∧
    specMinimumBar (SDKCandidate.objectOf [("foo", true)]) = false :=
  ⟨by decide, by decide⟩

/-- C4 amended: the validator accepts a candidate if and only if it is a
non-null object exposing at least one callable own member; the named capability
functions and the three-callable-member threshold are only reported in trace
output, never enforced. -/
theorem isValidRelayerSDK_accepts_any_callable :
    ∀ c, isValidRelayerSDK c = acceptsAnyCallable c := by
  intro c
  cases c with
  | undef => rfl
  | nullv => rfl
  | nonObject => rfl
  | objectOf props =>
    by_cases h : props.any (fun p => p.2) = true
    · obtain ⟨x, hx, hpx⟩ := List.any_eq_true.mp h
      have hmem : x ∈ props.filter (fun p => p.2) := List.mem_filter.mpr ⟨hx, hpx⟩
      have hfl : (props.filter (fun p => p.2)).length ≠ 0 := by
        intro h0
        rw [List.length_eq_zero] at h0
        rw [h0] at hmem
        exact absurd hmem (List.not_mem_nil x)
      have hpl : props.length ≠ 0 := by
        intro h0
        rw [List.length_eq_zero] at h0
        rw [h0] at hx
        exact absurd hx (List.not_mem_nil x)
      simp [isValidRelayerSDK, acceptsAnyCallable, h, hfl, hpl]
    · have hf : props.any (fun p => p.2) = false := by
        cases hb : props.any (fun p => p.2)
        · rfl
        · exact absurd hb h
      have hnil : props.filter (fun p => p.2) = [] := by
        rw [List.filter_eq_nil_iff]
        intro a ha hpa
        exact h (List.any_eq_true.mpr ⟨a, ha, hpa⟩)
      simp [isValidRelayerSDK, acceptsAnyCallable, hf, hnil]

/-! ## C5 -/

/-- C5 counterexample: a relayer-metadata response whose three addresses are
`0x`-prefixed but only 3 characters long — hence not well-formed 40-hex-char
addresses, as `isValidAddress` confirms — is accepted and returned by the probe
rather than being rejected as absent. -/
theorem probe_short_hex_accepted_cex :
    tryFetchFHEVMHardhatNodeRelayerMetadata (.ok (.strVal "HardhatNetwork/v2"))
        (.ok (.objVal c5Metadata)) = .ok (some (.objVal c5Metadata)) ∧
    isValidAddress (.strVal "0x1") = false :=
  ⟨rfl, by decide⟩

/-- The field check of the probe's loop agrees with the spec-level predicate
"present, a string, and `0x`-prefixed" on the looked-up field. -/
theorem metadataFieldOk_iff (fields : List (String × JSVal)) (k : String) :
    metadataFieldOk fields k = true ↔ specAddrPresentAnd0x (fields.lookup k) := by
  unfold metadataFieldOk specAddrPresentAnd0x
  cases h : fields.lookup k with
  | none => simp
  | some v =>
    cases v with
    | strVal s => simp
    | objVal f => simp
    | nullVal => simp
    | otherVal => simp

/-- C5 amended: against a node whose client version contains the marker, the
probe returns the metadata object exactly when all three addresses are present,
strings, and `0x`-prefixed, and returns absent (`undefined`, not an error) in
every other case; the 40-hex-character well-formedness from the spec is not
enforced beyond the `0x` prefix. -/
theorem probe_absent_iff_weak_malformed :
    ∀ (v : String) (fields : List (String × JSVal)),
      jsIncludes (jsToLower v) "hardhat" = true →
      ((tryFetchFHEVMHardhatNodeRelayerMetadata (.ok (.strVal v)) (.ok (.objVal fields)) =
          .ok (some (.objVal fields))) ↔
        (specAddrPresentAnd0x (fields.lookup "ACLAddress") ∧
         specAddrPresentAnd0x (fields.lookup "InputVerifierAddress") ∧
         specAddrPresentAnd0x (fields.lookup "KMSVerifierAddress"))) ∧
      (¬ (specAddrPresentAnd0x (fields.lookup "ACLAddress") ∧
          specAddrPresentAnd0x (fields.lookup "InputVerifierAddress") ∧
          specAddrPresentAnd0x (fields.lookup "KMSVerifierAddress")) →
        tryFetchFHEVMHardhatNodeRelayerMetadata (.ok (.strVal v)) (.ok (.objVal fields)) =
          .ok none) := by
  intro v fields hv
  have hred : tryFetchFHEVMHardhatNodeRelayerMetadata (.ok (.strVal v)) (.ok (.objVal fields)) =
      if metadataFieldOk fields "ACLAddress" &&
          metadataFieldOk fields "InputVerifierAddress" &&
          metadataFieldOk fields "KMSVerifierAddress"
      then .ok (some (.objVal fields)) else .ok none := by
    simp [tryFetchFHEVMHardhatNodeRelayerMetadata, hv]
  rw [hred]
  by_cases hall : (metadataFieldOk fields "ACLAddress" &&
      metadataFieldOk fields "InputVerifierAddress" &&
      metadataFieldOk fields "KMSVerifierAddress") = true
  · obtain ⟨⟨h1, h2⟩, h3⟩ :
        (metadataFieldOk fields "ACLAddress" = true ∧
         metadataFieldOk fields "InputVerifierAddress" = true) ∧
        metadataFieldOk fields "KMSVerifierAddress" = true := by
      constructor
      · constructor
        · exact (Bool.and_eq_true _ _).mp ((Bool.and_eq_true _ _).mp hall).1 |>.1
        · exact (Bool.and_eq_true _ _).mp ((Bool.and_eq_true _ _).mp hall).1 |>.2
      · exact ((Bool.and_eq_true _ _).mp hall).2
    rw [if_pos hall]
    constructor
    · constructor
      · intro _
        exact ⟨(metadataFieldOk_iff fields "ACLAddress").mp h1,
               (metadataFieldOk_iff fields "InputVerifierAddress").mp h2,
               (metadataFieldOk_iff fields "KMSVerifierAddress").mp h3⟩
      · intro _
        rfl
    · intro hc
      exact absurd ⟨(metadataFieldOk_iff fields "ACLAddress").mp h1,
        (metadataFieldOk_iff fields "InputVerifierAddress").mp h2,
        (metadataFieldOk_iff fields "KMSVerifierAddress").mp h3⟩ hc
  · rw [if_neg hall]
    have hspec : ¬ (specAddrPresentAnd0x (fields.lookup "ACLAddress") ∧
        specAddrPresentAnd0x (fields.lookup "InputVerifierAddress") ∧
        specAddrPresentAnd0x (fields.lookup "KMSVerifierAddress")) := by
      intro ⟨hs1, hs2, hs3⟩
      exact hall (by
        rw [Bool.and_eq_true, Bool.and_eq_true]
        exact ⟨⟨(metadataFieldOk_iff fields "ACLAddress").mpr hs1,
                (metadataFieldOk_iff fields "InputVerifierAddress").mpr hs2⟩,
               (metadataFieldOk_iff fields "KMSVerifierAddress").mpr hs3⟩)
    constructor
    · constructor
      · intro he
        simp at he
      · intro hc
        exact absurd hc hspec
    · intro _
      rfl

/-- C5 amended witness: the amended statement at the concrete version string
`"hardhat"` and a response with three `0x`-prefixed string addresses. -/
theorem probe_absent_iff_weak_malformed_witness :
    jsIncludes (jsToLower "hardhat") "hardhat" = true ∧
    (((tryFetchFHEVMHardhatNodeRelayerMetadata (.ok (.strVal "hardhat"))
          (.ok (.objVal cGoodFields)) = .ok (some (.objVal cGoodFields))) ↔
        (specAddrPresentAnd0x (cGoodFields.lookup "ACLAddress") ∧
         specAddrPresentAnd0x (cGoodFields.lookup "InputVerifierAddress") ∧
         specAddrPresentAnd0x (cGoodFields.lookup "KMSVerifierAddress"))) ∧
      (¬ (specAddrPresentAnd0x (cGoodFields.lookup "ACLAddress") ∧
          specAddrPresentAnd0x (cGoodFields.lookup "InputVerifierAddress") ∧
          specAddrPresentAnd0x (cGoodFields.lookup "KMSVerifierAddress")) →
        tryFetchFHEVMHardhatNodeRelayerMetadata (.ok (.strVal "hardhat"))
            (.ok (.objVal cGoodFields)) = .ok none)) :=
  ⟨by decide, probe_absent_iff_weak_malformed "hardhat" cGoodFields (by decide)⟩

/-! ## C6 -/

/-- C6: when the client-version query succeeds with a string that does not
contain the Hardhat marker (case-insensitively), the probe returns absent
(`undefined`) and does not throw, whatever the metadata query would have
returned. -/
theorem probe_wrong_marker_absent :
    ∀ (v : String) (metadataResult : Except Unit JSVal),
      jsIncludes (jsToLower v) "hardhat" = false →
      tryFetchFHEVMHardhatNodeRelayerMetadata (.ok (.strVal v)) metadataResult = .ok none := by
  intro v mres h
  simp [tryFetchFHEVMHardhatNodeRelayerMetadata, h]

/-- C6 witness: a Geth version string, with a metadata response that would have
been perfectly acceptable, still yields absent. -/
theorem probe_wrong_marker_absent_witness :
    jsIncludes (jsToLower "Geth/v1.13.0-stable") "hardhat" = false ∧
    tryFetchFHEVMHardhatNodeRelayerMetadata (.ok (.strVal "Geth/v1.13.0-stable"))
        (.ok (.objVal cGoodFields)) = .ok none :=
  ⟨by decide, probe_wrong_marker_absent "Geth/v1.13.0-stable" (.ok (.objVal cGoodFields))
    (by decide)⟩

/-! ## C7 -/

/-- C7: `resolve` classifies a chain as mock exactly when its id is 31337 (the
seeded default) or appears among the caller-supplied overrides; the chain id is
passed through unchanged; a caller-supplied entry for 31337 replaces the
default RPC URL while 31337 keeps its mock membership; and a chain id absent
from the merged table is returned as an `isMock: false` descriptor with the
incoming URL, not an exception (the function is total). -/
theorem resolve_mock_classification :
    ∀ (cid : Nat) (urlIn : Option String) (mcs : Option (List (Nat × String))),
      ((resolve cid urlIn mcs).isMock = true ↔
        (cid = 31337 ∨ ∃ u, (cid, u) ∈ mcs.getD [])) ∧
      (resolve cid urlIn mcs).chainId = cid ∧
      (∀ u rest, resolve 31337 none (some ((31337, u) :: rest)) =
        ⟨true, 31337, some u⟩) ∧
      (¬ (cid = 31337 ∨ ∃ u, (cid, u) ∈ mcs.getD []) →
        resolve cid urlIn mcs = ⟨false, cid, urlIn⟩) := by
  intro cid urlIn mcs
  have hmerged : ∀ tu, mergedMockChains mcs cid = some tu →
      (cid = 31337 ∨ ∃ u, (cid, u) ∈ mcs.getD []) := by
    intro tu htu
    unfold mergedMockChains at htu
    cases hl : (mcs.getD []).lookup cid with
    | some u =>
      exact Or.inr ⟨u, mem_of_lookup_eq_some hl⟩
    | none =>
      rw [hl] at htu
      by_cases h37 : cid = 31337
      · exact Or.inl h37
      · rw [if_neg h37] at htu
        cases htu
  have hmergednone : mergedMockChains mcs cid = none →
      ¬ (cid = 31337 ∨ ∃ u, (cid, u) ∈ mcs.getD []) := by
    intro hn hc
    unfold mergedMockChains at hn
    cases hl : (mcs.getD []).lookup cid with
    | some u => rw [hl] at hn; cases hn
    | none =>
      rw [hl] at hn
      cases hc with
      | inl h37 => rw [if_pos h37] at hn; cases hn
      | inr hex =>
        obtain ⟨u, hu⟩ := hex
        exact absurd hu ((lookup_eq_none_iff _ cid).mp hl u)
  refine ⟨?_, ?_, ?_, ?_⟩
  · constructor
    · intro hm
      unfold resolve at hm
      cases hmm : mergedMockChains mcs cid with
      | some tu => exact hmerged tu hmm
      | none =>
        rw [hmm] at hm
        cases hm
    · intro hc
      unfold resolve
      cases hmm : mergedMockChains mcs cid with
      | some tu => rfl
      | none => exact absurd hc (hmergednone hmm)
  · unfold resolve
    cases hmm : mergedMockChains mcs cid with
    | some tu => rfl
    | none => rfl
  · intro u rest
    have hl : List.lookup 31337 ((31337, u) :: rest) = some u := by
      simp [List.lookup]
    simp [resolve, mergedMockChains, hl, jsTruthyStr]
  · intro hc
    unfold resolve
    cases hmm : mergedMockChains mcs cid with
    | some tu => exact absurd (hmerged tu hmm) hc
    | none => rfl

/-- C7 witness: the unknown chain id 5 with no overrides is not mock, keeps its
chain id and produces no exception — an ordinary `isMock: false` descriptor. -/
theorem resolve_mock_classification_witness :
    (¬ ((5 : Nat) = 31337 ∨
        ∃ u, ((5 : Nat), u) ∈ (none : Option (List (Nat × String))).getD [])) ∧
    resolve 5 none none = ⟨false, 5, none⟩ :=
  ⟨by simp, (resolve_mock_classification 5 none none).2.2.2 (by simp)⟩

/-! ## C8 -/

/-- C8: on a loader with no pending `_loadPromise`, no valid pre-existing SDK
and no script tag, the first `load()` call hands back a fresh promise and
starts exactly one CDN fetch; a second `load()` call made while the first is
still pending returns the identical promise, leaves the world unchanged, and
the total fetch count after both calls is the original count plus one. -/
theorem load_single_flight :
    ∀ (s : LoaderWorld),
      s.loadPromise = none → s.windowSDK ≠ WindowSDK.valid → s.scriptTag = false →
      (RelayerSDKLoader.load s).1 = LoadReturn.fresh s.nextPromise ∧
      (RelayerSDKLoader.load (RelayerSDKLoader.load s).2).1 =
        LoadReturn.existing s.nextPromise ∧
      (RelayerSDKLoader.load (RelayerSDKLoader.load s).2).2 =
        (RelayerSDKLoader.load s).2 ∧
      (RelayerSDKLoader.load (RelayerSDKLoader.load s).2).2.fetchCount =
        s.fetchCount + 1 := by
  intro s h1 h2 h3
  obtain ⟨lp, np, fc, w, st⟩ := s
  simp only at h1 h3
  subst h1
  subst h3
  cases w with
  | valid => exact absurd rfl h2
  | absent =>
    refine ⟨rfl, rfl, rfl, rfl⟩
  | invalid =>
    refine ⟨rfl, rfl, rfl, rfl⟩

/-- C8 witness: the statement at a fresh loader world. -/
theorem load_single_flight_witness :
    ((⟨none, 0, 0, WindowSDK.absent, false⟩ : LoaderWorld).loadPromise = none) ∧
    ((⟨none, 0, 0, WindowSDK.absent, false⟩ : LoaderWorld).windowSDK ≠ WindowSDK.valid) ∧
    ((⟨none, 0, 0, WindowSDK.absent, false⟩ : LoaderWorld).scriptTag = false) ∧
    ((RelayerSDKLoader.load ⟨none, 0, 0, WindowSDK.absent, false⟩).1 =
        LoadReturn.fresh 0 ∧
      (RelayerSDKLoader.load
          (RelayerSDKLoader.load ⟨none, 0, 0, WindowSDK.absent, false⟩).2).1 =
        LoadReturn.existing 0 ∧
      (RelayerSDKLoader.load
          (RelayerSDKLoader.load ⟨none, 0, 0, WindowSDK.absent, false⟩).2).2 =
        (RelayerSDKLoader.load ⟨none, 0, 0, WindowSDK.absent, false⟩).2 ∧
      (RelayerSDKLoader.load
          (RelayerSDKLoader.load ⟨none, 0, 0, WindowSDK.absent, false⟩).2).2.fetchCount =
        0 + 1) :=
  ⟨rfl, by decide, rfl,
   load_single_flight ⟨none, 0, 0, WindowSDK.absent, false⟩ rfl (by decide) rfl⟩

/-! ## C9 -/

/-- C9: starting attempt B (a refresh with a provider present) while attempt A
is still in flight aborts A's controller; A's subsequent resolution — success
or failure alike — leaves the controller state exactly as B's start left it,
and in particular an aborted attempt's failure never puts the controller in the
`error` state; B's own completion is the one that lands (`ready` with B's
instance).  The freshness hypotheses (`a ≠ s.nextAttempt`,
`s.nextAttempt ∉ s.abortedIds`) hold in every reachable state because attempt
ids are allocated from the strictly increasing counter. -/
theorem stale_attempt_discarded :
    ∀ (s : UseFhevmState) (a i e : Nat),
      s.currentAttempt = some a →
      a ≠ s.nextAttempt →
      s.nextAttempt ∉ s.abortedIds →
      attemptSucceeds (useFhevmRefresh s) a i = useFhevmRefresh s ∧
      attemptFails (useFhevmRefresh s) a e = useFhevmRefresh s ∧
      (attemptFails (useFhevmRefresh s) a e).status ≠ FhevmGoState.error ∧
      (attemptSucceeds (useFhevmRefresh s) s.nextAttempt i).status = FhevmGoState.ready ∧
      (attemptSucceeds (useFhevmRefresh s) s.nextAttempt i).inst = some i := by
  intro s a i e hcur hne hnotab
  have habort : (useFhevmRefresh s).abortedIds = a :: s.abortedIds := by
    simp [useFhevmRefresh, hcur]
  have hmem : a ∈ (useFhevmRefresh s).abortedIds := by
    rw [habort]
    exact List.mem_cons_self a _
  have hnmem : s.nextAttempt ∉ (useFhevmRefresh s).abortedIds := by
    rw [habort]
    intro hc
    cases List.mem_cons.mp hc with
    | inl h => exact hne h.symm
    | inr h => exact hnotab h
  have hfail : attemptFails (useFhevmRefresh s) a e = useFhevmRefresh s := by
    simp [attemptFails, hmem]
  refine ⟨?_, hfail, ?_, ?_, ?_⟩
  · simp [attemptSucceeds, hmem]
  · rw [hfail]
    simp [useFhevmRefresh]
  · simp [attemptSucceeds, hnmem]
  · simp [attemptSucceeds, hnmem]

/-- C9 witness: the statement at a concrete controller state with attempt 0 in
flight, refreshed into attempt 1; instance id 7 and error id 9. -/
theorem stale_attempt_discarded_witness :
    ((⟨FhevmGoState.loading, none, none, some 0, [], 1⟩ : UseFhevmState).currentAttempt =
      some 0) ∧
    ((0 : Nat) ≠ 1) ∧
    ((1 : Nat) ∉ ([] : List Nat)) ∧
    (attemptSucceeds (useFhevmRefresh ⟨FhevmGoState.loading, none, none, some 0, [], 1⟩) 0 7 =
        useFhevmRefresh ⟨FhevmGoState.loading, none, none, some 0, [], 1⟩ ∧
      attemptFails (useFhevmRefresh ⟨FhevmGoState.loading, none, none, some 0, [], 1⟩) 0 9 =
        useFhevmRefresh ⟨FhevmGoState.loading, none, none, some 0, [], 1⟩ ∧
      (attemptFails (useFhevmRefresh ⟨FhevmGoState.loading, none, none, some 0, [], 1⟩) 0 9).status ≠
        FhevmGoState.error ∧
      (attemptSucceeds (useFhevmRefresh ⟨FhevmGoState.loading, none, none, some 0, [], 1⟩) 1 7).status =
        FhevmGoState.ready ∧
      (attemptSucceeds (useFhevmRefresh ⟨FhevmGoState.loading, none, none, some 0, [], 1⟩) 1 7).inst =
        some 7) :=
  ⟨rfl, by decide, by simp,
   stale_attempt_discarded ⟨FhevmGoState.loading, none, none, some 0, [], 1⟩ 0 7 9 rfl
     (by decide) (by simp)⟩

/-! ## C10 -/

/-- C10: for a chain id that is not Sepolia (11155111) and not a mock chain
whose metadata probe succeeds, `createFhevmInstance` throws the terminal
`Unsupported network` error — a single evaluation with no retry path.  The
environment (resolve inputs and both RPC results) is arbitrary. -/
theorem unsupported_network_terminal :
    ∀ (chainId : Nat) (rpcUrlIn : Option String)
      (mockChains : Option (List (Nat × String)))
      (versionResult metadataResult : Except Unit JSVal),
      chainId ≠ FHEVM_CONFIG_SEPOLIA_chainId →
      (¬ ((resolve chainId rpcUrlIn mockChains).isMock = true ∧
          ∃ m, tryFetchFHEVMHardhatNodeRelayerMetadata versionResult metadataResult =
            Except.ok (some m))) →
      createFhevmInstance chainId rpcUrlIn mockChains versionResult metadataResult false =
        CreateOutcome.unsupported chainId := by
  intro cid url mcs vres mres hsep hnm
  have hmf : mockBranchResult (resolve cid url mcs)
      (tryFetchFHEVMHardhatNodeRelayerMetadata vres mres) = none := by
    unfold mockBranchResult
    by_cases hb : (resolve cid url mcs).isMock = true ∧
        jsTruthyStr (resolve cid url mcs).rpcUrl = true
    · rw [if_pos hb]
      cases ht : tryFetchFHEVMHardhatNodeRelayerMetadata vres mres with
      | error e => rfl
      | ok o =>
        cases o with
        | none => rfl
        | some m => exact absurd ⟨hb.1, ⟨m, ht⟩⟩ hnm
    · rw [if_neg hb]
  simp [createFhevmInstance, hmf, hsep]

/-- C10 witness: chain id 42 with no overrides, probed against a Geth node,
ends in the unsupported-network error. -/
theorem unsupported_network_terminal_witness :
    ((42 : Nat) ≠ FHEVM_CONFIG_SEPOLIA_chainId) ∧
    (¬ ((resolve 42 none none).isMock = true ∧
        ∃ m, tryFetchFHEVMHardhatNodeRelayerMetadata
          (.ok (.strVal "Geth/v1.13.0")) (.ok JSVal.nullVal) = Except.ok (some m))) ∧
    createFhevmInstance 42 none none (.ok (.strVal "Geth/v1.13.0")) (.ok JSVal.nullVal)
        false = CreateOutcome.unsupported 42 :=
  ⟨by decide, fun hc => absurd hc.1 (by decide),
   unsupported_network_terminal 42 none none (.ok (.strVal "Geth/v1.13.0"))
     (.ok JSVal.nullVal) (by decide) (fun hc => absurd hc.1 (by decide))⟩

end Zamapp
